import Mathlib

/-!
Shallow embedding of the `idonttrustlikethat` runtime validation library
(`src/validation.ts`, current iteration) and proofs about the behaviour of
its combinators.  JavaScript runtime values are modelled by the inductive
type `Value`; JavaScript numbers by `JsNum` (NaN, signed infinities, and
finite values carried exactly as rationals — IEEE-754 rounding is not
modelled, which is irrelevant to the NaN/finite/infinite classification the
library inspects).  Mutation of the per-call context object is modelled by
explicit state passing: a validator maps a value, a context and a path to a
result together with the context as it stands after the call; the spread
copy `\x7b...context\x7d` performed by the source at branch points is
modelled by passing the current context and discarding the returned one.
-/

namespace Idtlt

/-- JavaScript numbers as the library observes them: NaN, the two
infinities, or a finite value (carried exactly as a rational). -/
inductive JsNum : Type where
  | nan : JsNum
  | inf (pos : Bool) : JsNum
  | fin (q : ℚ) : JsNum
deriving DecidableEq

/-- Model of `Number.isFinite`. -/
def jsIsFinite : JsNum → Bool
  | .fin _ => true
  | _ => false

/-- JavaScript runtime values (tree-shaped, JSON-like data plus the two
nullish sentinels).  Objects are association lists in property insertion
order; real JavaScript objects never hold a duplicate key. -/
inductive Value : Type where
  | vNull : Value
  | vUndefined : Value
  | vStr (s : String) : Value
  | vNum (n : JsNum) : Value
  | vBool (b : Bool) : Value
  | vArr (items : List Value) : Value
  | vObj (fields : List (String × Value)) : Value

mutual

/-- Structural boolean equality on values. -/
def Value.beq : Value → Value → Bool
  | .vNull, .vNull => true
  | .vUndefined, .vUndefined => true
  | .vStr a, .vStr b => a == b
  | .vNum a, .vNum b => a == b
  | .vBool a, .vBool b => a == b
  | .vArr a, .vArr b => Value.beqList a b
  | .vObj a, .vObj b => Value.beqFields a b
  | _, _ => false

/-- Structural boolean equality on lists of values. -/
def Value.beqList : List Value → List Value → Bool
  | [], [] => true
  | a :: as1, b :: bs => Value.beq a b && Value.beqList as1 bs
  | _, _ => false

/-- Structural boolean equality on association lists of values. -/
def Value.beqFields : List (String × Value) → List (String × Value) → Bool
  | [], [] => true
  | a :: as1, b :: bs => (a.1 == b.1 && Value.beq a.2 b.2) && Value.beqFields as1 bs
  | _, _ => false

end

mutual

theorem Value.beq_iff : ∀ (a b : Value), (Value.beq a b = true) ↔ a = b
  | .vNull, b => by cases b <;> simp [Value.beq]
  | .vUndefined, b => by cases b <;> simp [Value.beq]
  | .vStr a, b => by cases b <;> simp [Value.beq]
  | .vNum a, b => by cases b <;> simp [Value.beq]
  | .vBool a, b => by cases b <;> simp [Value.beq]
  | .vArr a, b => by
      cases b <;> simp [Value.beq]
      exact Value.beqList_iff a _
  | .vObj a, b => by
      cases b <;> simp [Value.beq]
      exact Value.beqFields_iff a _

theorem Value.beqList_iff : ∀ (a b : List Value), (Value.beqList a b = true) ↔ a = b
  | [], b => by cases b <;> simp [Value.beqList]
  | a :: as1, [] => by simp [Value.beqList]
  | a :: as1, b :: bs => by
      have h1 := Value.beq_iff a b
      have h2 := Value.beqList_iff as1 bs
      simp [Value.beqList, h1, h2]

theorem Value.beqFields_iff :
    ∀ (a b : List (String × Value)), (Value.beqFields a b = true) ↔ a = b
  | [], b => by cases b <;> simp [Value.beqFields]
  | a :: as1, [] => by simp [Value.beqFields]
  | a :: as1, b :: bs => by
      have h1 := Value.beq_iff a.2 b.2
      have h2 := Value.beqFields_iff as1 bs
      constructor
      · intro h
        simp [Value.beqFields, h1, h2] at h
        obtain ⟨⟨hk, hv⟩, ht⟩ := h
        have : a = b := Prod.ext hk hv
        simp [this, ht]
      · intro h
        injection h with h3 h4
        subst h3
        subst h4
        simp [Value.beqFields, h1, h2]

end

instance : DecidableEq Value := fun a b =>
  decidable_of_iff _ (Value.beq_iff a b)

/-- Model of the `typeof` operator (arrays and null have kind "object"). -/
def jsTypeof : Value → String
  | .vNull => "object"
  | .vUndefined => "undefined"
  | .vStr _ => "string"
  | .vNum _ => "number"
  | .vBool _ => "boolean"
  | .vArr _ => "object"
  | .vObj _ => "object"

/-- The source helper `valueType`: "array" for arrays, "null" for null,
otherwise the `typeof` kind. -/
def valueType : Value → String
  | .vArr _ => "array"
  | .vNull => "null"
  | v => jsTypeof v

/-- Loose nullish test `v == null` (true for null and undefined). -/
def isNullish : Value → Bool
  | .vNull => true
  | .vUndefined => true
  | _ => false

/-- JavaScript truthiness. -/
def jsTruthy : Value → Bool
  | .vNull => false
  | .vUndefined => false
  | .vBool b => b
  | .vStr s => !(s = "")
  | .vNum .nan => false
  | .vNum (.fin q) => !(q = 0)
  | .vNum (.inf _) => true
  | .vArr _ => true
  | .vObj _ => true

/-- Strict equality `===`.  NaN is not equal to itself.  Arrays and objects
compare by reference in JavaScript; the embedding has no object identity
and the library only ever compares a literal (string, number, boolean,
null or undefined) against an input, so reference comparison of two
structured values is modelled as false. -/
def jsStrictEq : Value → Value → Bool
  | .vNull, .vNull => true
  | .vUndefined, .vUndefined => true
  | .vStr a, .vStr b => a = b
  | .vBool a, .vBool b => a = b
  | .vNum (.fin a), .vNum (.fin b) => a = b
  | .vNum (.inf a), .vNum (.inf b) => a = b
  | _, _ => false

/-- SameValueZero, the key equality used by `Map`: like `===` but NaN
equals NaN. -/
def jsSameValueZero : Value → Value → Bool
  | .vNum .nan, .vNum .nan => true
  | a, b => jsStrictEq a b

/-- Canonical decimal string of a natural number index, as produced by
`String(i)`. -/
def natStr (n : Nat) : String := Nat.repr n

/-- Property read `v[key]`.  Objects look keys up in insertion order;
arrays expose their elements under the canonical decimal indices and their
length under "length"; strings expose their characters and length.  Other
primitives have none of the read properties; reading a property off null
or undefined throws in JavaScript, but the library always guards those
cases before reading, so the model returns undefined there. -/
def jsGet : Value → String → Value
  | .vObj fields, key =>
    match fields.find? (fun kv => kv.1 = key) with
    | some kv => kv.2
    | none => .vUndefined
  | .vArr items, key =>
    if key = "length" then .vNum (.fin items.length)
    else
      match (List.range items.length).find? (fun i => natStr i = key) with
      | some i => items.getD i .vUndefined
      | none => .vUndefined
  | .vStr s, key =>
    if key = "length" then .vNum (.fin s.length)
    else
      match (List.range s.length).find? (fun i => natStr i = key) with
      | some i => .vStr (String.mk [s.toList.getD i ' '])
      | none => .vUndefined
  | _, _ => .vUndefined

/-- JavaScript object property write: replace the value in place when the
key exists, otherwise append the new entry (insertion order preserved). -/
def assocSet {α : Type} : List (String × α) → String → α → List (String × α)
  | [], key, a => [(key, a)]
  | kv :: rest, key, a =>
    if kv.1 = key then (key, a) :: rest else kv :: assocSet rest key a

/-- Decimal rendering of a finite JavaScript number.  Integers render as
their decimal digits; other values with a terminating decimal expansion
render with a point and the least number of fraction digits.  JavaScript
prints the shortest decimal that round-trips the IEEE-754 double (always a
terminating expansion); the development only ever renders integers and
short terminating decimals, where the two agree.  A rational with no
terminating expansion cannot arise from a double and gets a fraction
fallback. -/
def ratToJsString (q : ℚ) : String :=
  if q.den = 1 then Int.repr q.num
  else
    match (List.range 40).find? (fun k => (q * ((10 : ℚ) ^ (k + 1))).den = 1) with
    | some k =>
      let digitsCount := k + 1
      let m := (q * ((10 : ℚ) ^ digitsCount)).num
      let digits := Nat.repr m.natAbs
      let padded :=
        if digits.length < digitsCount + 1 then
          String.mk (List.replicate (digitsCount + 1 - digits.length) '0') ++ digits
        else digits
      let ipart := padded.take (padded.length - digitsCount)
      let fpart := padded.drop (padded.length - digitsCount)
      (if m < 0 then "-" else "") ++ ipart ++ "." ++ fpart
    | none => Int.repr q.num ++ "/" ++ Nat.repr q.den

/-- String rendering of a JavaScript number, as interpolated by a template
literal. -/
def jsNumToString : JsNum → String
  | .nan => "NaN"
  | .inf true => "Infinity"
  | .inf false => "-Infinity"
  | .fin q => ratToJsString q

mutual

/-- String conversion performed by template-literal interpolation.
Arrays stringify as their elements joined by commas (nullish elements
render empty, per Array.prototype.join); plain objects render as
"[object Object]". -/
def jsTemplateStr : Value → String
  | .vNull => "null"
  | .vUndefined => "undefined"
  | .vStr s => s
  | .vBool true => "true"
  | .vBool false => "false"
  | .vNum n => jsNumToString n
  | .vArr items => String.intercalate "," (jsTemplateItems items)
  | .vObj _ => "[object Object]"

/-- Element strings for Array.prototype.join: null and undefined render
as the empty string. -/
def jsTemplateItems : List Value → List String
  | [] => []
  | .vNull :: rest => "" :: jsTemplateItems rest
  | .vUndefined :: rest => "" :: jsTemplateItems rest
  | v :: rest => jsTemplateStr v :: jsTemplateItems rest

end

/-- Escape one character for a JSON string literal.  Control characters
other than the common escapes are rendered with a unicode escape. -/
def jsonEscapeChar (c : Char) : String :=
  if c = '"' then "\\\""
  else if c = '\\' then "\\\\"
  else if c = '\n' then "\\n"
  else if c = '\t' then "\\t"
  else if c = '\r' then "\\r"
  else if c.toNat < 32 then
    let hex := Nat.toDigits 16 c.toNat
    "\\u" ++ String.mk (List.replicate (4 - hex.length) '0') ++ String.mk hex
  else String.mk [c]

/-- JSON string literal with quotes and escaping. -/
def jsonQuote (s : String) : String :=
  "\"" ++ String.join (s.toList.map jsonEscapeChar) ++ "\""

/-- An indentation prefix of 2*n spaces, as produced by
JSON.stringify with a gap of 2. -/
def jsonIndent (n : Nat) : String := String.mk (List.replicate (2 * n) ' ')

mutual

/-- JSON.stringify(v, undefined, 2) at nesting depth `ind`.  Returns none
where stringify yields no string (the undefined sentinel).  NaN and the
infinities serialize as null.  Fields whose value does not serialize are
skipped; array holes serialize as null. -/
def jsonStr (ind : Nat) : Value → Option String
  | .vUndefined => none
  | .vNull => some "null"
  | .vBool true => some "true"
  | .vBool false => some "false"
  | .vNum (.fin q) => some (ratToJsString q)
  | .vNum _ => some "null"
  | .vStr s => some (jsonQuote s)
  | .vArr [] => some "[]"
  | .vArr items =>
    some ("[\n" ++
      String.intercalate ",\n"
        ((jsonItems (ind + 1) items).map (fun t => jsonIndent (ind + 1) ++ t)) ++
      "\n" ++ jsonIndent ind ++ "]")
  | .vObj fields =>
    match jsonFields (ind + 1) fields with
    | [] => some "\x7b\x7d"
    | fs =>
      some ("\x7b\n" ++
        String.intercalate ",\n" (fs.map (fun t => jsonIndent (ind + 1) ++ t)) ++
        "\n" ++ jsonIndent ind ++ "\x7d")

/-- Serialized array elements (undefined renders as null). -/
def jsonItems (ind : Nat) : List Value → List String
  | [] => []
  | v :: rest => ((jsonStr ind v).getD "null") :: jsonItems ind rest

/-- Serialized object entries; entries whose value does not serialize are
dropped. -/
def jsonFields (ind : Nat) : List (String × Value) → List String
  | [] => []
  | kv :: rest =>
    match jsonStr ind kv.2 with
    | some s => (jsonQuote kv.1 ++ ": " ++ s) :: jsonFields ind rest
    | none => jsonFields ind rest

end

/-- The source helper `prettifyJson`: JSON.stringify(value, undefined, 2).
When stringify yields no string (undefined input) the template literals
embedding the result render the text "undefined". -/
def prettifyJson (value : Value) : String :=
  (jsonStr 0 value).getD "undefined"

/-! ### ECMAScript ToNumber on strings

Model of the `Number(str)` builtin used by `numberFromString`: trim
whitespace, empty means zero, then the StringNumericLiteral grammar —
optionally signed "Infinity" or decimal literal (integer part, optional
fraction, optional exponent), or an unsigned 0x/0o/0b radix literal;
anything else is NaN.  Finite results are kept exactly as rationals; the
rounding of huge finite literals to an IEEE-754 infinity is not modelled
(no claim in this development evaluates such a literal). -/

/-- StrWhiteSpace (the ASCII part; the unicode spaces behave alike). -/
def isStrWhite (c : Char) : Bool :=
  c = ' ' ∨ c = '\t' ∨ c = '\n' ∨ c = '\r' ∨ c = '\x0b' ∨ c = '\x0c'

/-- Decimal digit test. -/
def isDecDigit (c : Char) : Bool := '0' ≤ c ∧ c ≤ '9'

/-- Value of a digit character in a radix up to 16, if valid. -/
def radixDigitVal (radix : Nat) (c : Char) : Option Nat :=
  let v :=
    if '0' ≤ c ∧ c ≤ '9' then some (c.toNat - '0'.toNat)
    else if 'a' ≤ c ∧ c ≤ 'f' then some (c.toNat - 'a'.toNat + 10)
    else if 'A' ≤ c ∧ c ≤ 'F' then some (c.toNat - 'A'.toNat + 10)
    else none
  match v with
  | some n => if n < radix then some n else none
  | none => none

/-- Digits of a radix literal folded to a natural number; none when the
digit list is empty or holds an invalid digit. -/
def radixNat (radix : Nat) (cs : List Char) : Option Nat :=
  match cs with
  | [] => none
  | _ =>
    cs.foldl
      (fun acc c =>
        match acc, radixDigitVal radix c with
        | some a, some d => some (a * radix + d)
        | _, _ => none)
      (some 0)

/-- Natural number denoted by a list of decimal digits. -/
def decNat (cs : List Char) : Nat :=
  cs.foldl (fun acc c => acc * 10 + (c.toNat - '0'.toNat)) 0

/-- Apply a decimal exponent to a rational. -/
def applyExp10 (q : ℚ) (e : Int) : ℚ :=
  if 0 ≤ e then q * (10 : ℚ) ^ e.toNat else q / (10 : ℚ) ^ (-e).toNat

/-- ExponentPart: e/E, optional sign, one or more decimal digits,
consuming the whole remainder. -/
def parseExpPart (cs : List Char) : Option Int :=
  match cs with
  | 'e' :: rest => parseSignedDigits rest
  | 'E' :: rest => parseSignedDigits rest
  | _ => none
where
  parseSignedDigits : List Char → Option Int
    | '+' :: ds => if ds ≠ [] ∧ ds.all isDecDigit then some (decNat ds) else none
    | '-' :: ds => if ds ≠ [] ∧ ds.all isDecDigit then some (-(decNat ds : Int)) else none
    | ds => if ds ≠ [] ∧ ds.all isDecDigit then some (decNat ds) else none

/-- Unsigned StrDecimalLiteral: digits [ . digits ] [ exponent ] or
. digits [ exponent ], consuming the whole input. -/
def decLiteral (cs : List Char) : Option ℚ :=
  let ip := cs.takeWhile isDecDigit
  let r1 := cs.dropWhile isDecDigit
  match r1 with
  | [] => if ip = [] then none else some (mkRat (decNat ip) 1)
  | '.' :: r2 =>
    let fp := r2.takeWhile isDecDigit
    let r3 := r2.dropWhile isDecDigit
    if ip = [] ∧ fp = [] then none
    else
      let base : ℚ := mkRat (decNat ip * 10 ^ fp.length + decNat fp) (10 ^ fp.length)
      match r3 with
      | [] => some base
      | _ => (parseExpPart r3).map (applyExp10 base)
  | _ =>
    if ip = [] then none
    else (parseExpPart r1).map (applyExp10 (mkRat (decNat ip) 1))

/-- Unsigned numeric literal: Infinity, a radix literal (only where a sign
was not consumed), or a decimal literal. -/
def strUnsigned (cs : List Char) (allowRadix : Bool) : Option JsNum :=
  if cs = "Infinity".toList then some (.inf true)
  else
    match cs with
    | '0' :: c :: rest =>
      if allowRadix ∧ (c = 'x' ∨ c = 'X') then (radixNat 16 rest).map (fun n => .fin (mkRat n 1))
      else if allowRadix ∧ (c = 'o' ∨ c = 'O') then (radixNat 8 rest).map (fun n => .fin (mkRat n 1))
      else if allowRadix ∧ (c = 'b' ∨ c = 'B') then (radixNat 2 rest).map (fun n => .fin (mkRat n 1))
      else (decLiteral cs).map .fin
    | _ => (decLiteral cs).map .fin

/-- Negate a JavaScript number (NaN never reaches this point). -/
def negJsNum : JsNum → JsNum
  | .nan => .nan
  | .inf p => .inf (!p)
  | .fin q => .fin (-q)

/-- StringNumericLiteral after trimming: empty is zero; a sign may precede
Infinity or a decimal literal but not a radix literal. -/
def strNumericLiteral (cs : List Char) : Option JsNum :=
  match cs with
  | [] => some (.fin 0)
  | '+' :: rest => strUnsigned rest false
  | '-' :: rest => (strUnsigned rest false).map negJsNum
  | _ => strUnsigned cs true

/-- The `Number` builtin applied to a string. -/
def jsStringToNumber (s : String) : JsNum :=
  let cs := ((s.toList.dropWhile isStrWhite).reverse.dropWhile isStrWhite).reverse
  match strNumericLiteral cs with
  | some n => n
  | none => .nan

/-- The `Number` builtin applied to an arbitrary value (ToNumber):
numbers pass through, null and false are zero, true is one, undefined is
NaN, strings parse, and structured values convert via their string
conversion. -/
def jsToNumberValue : Value → JsNum
  | .vNum n => n
  | .vNull => .fin 0
  | .vBool false => .fin 0
  | .vBool true => .fin 1
  | .vUndefined => .nan
  | .vStr s => jsStringToNumber s
  | v => jsStringToNumber (jsTemplateStr v)

/-! ### The validator engine -/

/-- A structured validation error: a message and the dotted path at which
the failure occurred. -/
structure ValidationError : Type where
  message : String
  path : String
deriving DecidableEq

/-- The outcome of one validation: a validated value or a list of errors
(`Validation<T>` in the source; the runtime is untyped so the payload is a
`Value`). -/
inductive VResult : Type where
  | ok (value : Value) : VResult
  | err (errors : List ValidationError) : VResult
deriving DecidableEq

/-- Whether a result is a success (the `.ok` flag). -/
def VResult.isOkB : VResult → Bool
  | .ok _ => true
  | .err _ => false

/-- The errors of a failed result (the empty list on a success, which the
source never reads). -/
def VResult.errorsOf : VResult → List ValidationError
  | .ok _ => []
  | .err es => es

/-- The validated value of a successful result, if any. -/
def VResult.okValue : VResult → Option Value
  | .ok v => some v
  | .err _ => none

/-- The per-call context object: the key-transformation configuration plus
the `_hadCustomError` bookkeeping flag (`false` models the property being
absent; the source only ever sets it to `true`). -/
structure Context : Type where
  transformObjectKeys : Option (String → String)
  hadCustomError : Bool

/-- The context a top-level `validate` call starts from: a fresh copy of
the empty default context. -/
def defaultContext : Context := ⟨none, false⟩

/-- Build an error result holding a single error at the given path. -/
def failure (path : String) (message : String) : VResult :=
  .err [⟨message, path⟩]

/-- The standard type-mismatch message. -/
def typeFailureMessage (expectedType : String) (value : Value) : String :=
  "Expected " ++ expectedType ++ ", got " ++ valueType value

/-- A type-mismatch failure at the given path. -/
def typeFailure (value : Value) (path : String) (expectedType : String) : VResult :=
  .err [⟨typeFailureMessage expectedType value, path⟩]

/-- `getPath(name, parent?)`: append the name to a non-empty parent with a
dot, else the name alone (the missing parent of the root call behaves like
the empty string, both being falsy). -/
def getPath (name : String) (parent : String) : String :=
  if parent = "" then name else parent ++ "." ++ name

/-- The default root path. -/
def rootPath : String := getPath "" ""

mutual

/-- A validator: its validation function (mutation of the shared context
object is modelled by returning the context as it stands after the call)
together with the introspection fields the source attaches to particular
validators: `props` (object validators, and the `__tag` marker object of
the primitives), `literal` (literal validators) and `union` (union
validators). -/
inductive Validator : Type where
  | mk
    (run : Value → Context → String → VResult × Context)
    (props : Option (List (String × PropEntry)))
    (litVal : Option Value)
    (unionVs : Option (List Validator)) : Validator

/-- An entry of a `props` record: a child validator for object schemas, or
the plain string stored under `__tag` by the primitives. -/
inductive PropEntry : Type where
  | vld (v : Validator) : PropEntry
  | tagStr (s : String) : PropEntry

end

/-- The validation function of a validator. -/
def Validator.run : Validator → Value → Context → String → VResult × Context
  | .mk r _ _ _ => r

/-- The `props` introspection field. -/
def Validator.props : Validator → Option (List (String × PropEntry))
  | .mk _ p _ _ => p

/-- The `literal` introspection field. -/
def Validator.litVal : Validator → Option Value
  | .mk _ _ l _ => l

/-- The `union` introspection field. -/
def Validator.unionVs : Validator → Option (List Validator)
  | .mk _ _ _ u => u

/-- A plain `new Validator(fn)` with no introspection fields. -/
def mkValidator (run : Value → Context → String → VResult × Context) : Validator :=
  .mk run none none none

/-- Top-level `validate(value)`: run with a fresh default context and the
root path, observing only the result. -/
def Validator.validate (vl : Validator) (value : Value) : VResult :=
  (vl.run value defaultContext rootPath).1

/-- The `transform` helper: run the wrapped validator, hand the result,
the raw value, the path and the (possibly mutated) context to `fn`; a
string error becomes a single error at the current path, a structured
error list passes through. -/
inductive TResult : Type where
  | ok (value : Value) : TResult
  | errStr (e : String) : TResult
  | errList (es : List ValidationError) : TResult

/-- View a validation result as a transform result (for the branches of
the source that return the upstream result unchanged). -/
def VResult.toTResult : VResult → TResult
  | .ok v => .ok v
  | .err es => .errList es

/-- The `transform` combinator. -/
def transform (vl : Validator)
    (fn : VResult → Value → String → Context → TResult × Context) : Validator :=
  mkValidator fun v c p =>
    let rc := vl.run v c p
    let tc := fn rc.1 v p rc.2
    match tc.1 with
    | .ok b => (.ok b, tc.2)
    | .errStr e => (failure p e, tc.2)
    | .errList es => (.err es, tc.2)

/-- The result of a refinement function passed to `and` (`Result<string, B>`
in the source). -/
inductive RefineResult : Type where
  | ok (value : Value) : RefineResult
  | err (e : String) : RefineResult

/-- `and`: refine the validated value; a failure upstream passes through. -/
def Validator.and (vl : Validator) (fn : Value → RefineResult) : Validator :=
  transform vl fun r _v _p c =>
    (match r with
     | .ok value =>
       match fn value with
       | .ok b => TResult.ok b
       | .err e => TResult.errStr e
     | .err es => TResult.errList es, c)

/-- `map`: a refinement that always succeeds. -/
def Validator.map (vl : Validator) (fn : Value → Value) : Validator :=
  vl.and fun v => .ok (fn v)

/-- `filter`: keep the value when the predicate holds, else fail with the
filter message (whose trailing stray quote is in the source). -/
def Validator.filter (vl : Validator) (fn : Value → Bool) : Validator :=
  vl.and fun v => if fn v then .ok v else .err ("filter error: " ++ prettifyJson v ++ "\"")

/-- `withError`: when the upstream result is a success or a custom error
was already claimed on this chain, return the upstream result unchanged;
otherwise set the flag and replace the failure with the computed message. -/
def Validator.withError (vl : Validator) (errorFunction : Value → String) : Validator :=
  transform vl fun result value _p context =>
    if result.isOkB ∨ context.hadCustomError then (result.toTResult, context)
    else (.errStr (errorFunction value), { context with hadCustomError := true })

/-- `mapErrors`: like `withError` but mapping the structured error list. -/
def Validator.mapErrors (vl : Validator)
    (errorFunction : List ValidationError → List ValidationError) : Validator :=
  transform vl fun result _value _p context =>
    if result.isOkB ∨ context.hadCustomError then (result.toTResult, context)
    else (.errList (errorFunction result.errorsOf), { context with hadCustomError := true })

/-! ### Primitive validators -/

/-- The `primitive` helper: a validator whose `props` is the marker object
holding the primitive's name under `__tag`. -/
def primitive (name : String)
    (run : Value → Context → String → VResult × Context) : Validator :=
  .mk run (some [("__tag", .tagStr name)]) none none

/-- The `null` primitive validator. -/
def nullValidator : Validator :=
  primitive "null" fun v c p =>
    ((if v = .vNull then .ok v else typeFailure v p "null"), c)

/-- The `undefined` primitive validator. -/
def undefinedValidator : Validator :=
  primitive "undefined" fun v c p =>
    ((if v = .vUndefined then .ok v else typeFailure v p "undefined"), c)

/-- The `string` primitive validator. -/
def string : Validator :=
  primitive "string" fun v c p =>
    ((match v with
      | .vStr _ => .ok v
      | _ => typeFailure v p "string"), c)

/-- The `number` primitive validator. -/
def number : Validator :=
  primitive "number" fun v c p =>
    ((match v with
      | .vNum _ => .ok v
      | _ => typeFailure v p "number"), c)

/-- The `boolean` primitive validator. -/
def boolean : Validator :=
  primitive "boolean" fun v c p =>
    ((match v with
      | .vBool _ => .ok v
      | _ => typeFailure v p "boolean"), c)

/-- The `unknown` primitive validator: always succeeds with the input. -/
def unknown : Validator := primitive "unknown" fun v c _p => (.ok v, c)

/-! ### Structural combinators -/

/-- The element loop of `array`: validate each element with a fork
(spread copy) of the context at the child path built from its index,
pushing successes and flattening failures into the running accumulators. -/
def arrayLoop (validator : Validator) (c : Context) (p : String) :
    List Value → Nat → List Value → List ValidationError →
    List Value × List ValidationError
  | [], _, validatedArray, errors => (validatedArray, errors)
  | item :: rest, i, validatedArray, errors =>
    match (validator.run item c (getPath (natStr i) p)).1 with
    | .ok w => arrayLoop validator c p rest (i + 1) (validatedArray ++ [w]) errors
    | .err es => arrayLoop validator c p rest (i + 1) validatedArray (errors ++ es)

/-- The `array` combinator. -/
def array (validator : Validator) : Validator :=
  mkValidator fun v c p =>
    ((match v with
      | .vArr items =>
        let r := arrayLoop validator c p items 0 [] []
        if r.2 = [] then .ok (.vArr r.1) else .err r.2
      | _ => typeFailure v p "array"), c)

/-- The field loop of `object`: for each declared key in order, apply the
configured key transformation, read the input under the transformed key,
validate with a fork of the context at the child path of the transformed
key; store a defined success under the declared key, skip an undefined
success, and collect errors. -/
def objectLoop (props : List (String × Validator)) (v : Value) (c : Context) (p : String) :
    List (String × Value) → List ValidationError →
    List (String × Value) × List ValidationError
  :=
  fun acc errors =>
    match props with
    | [] => (acc, errors)
    | (key, validator) :: rest =>
      let transformedKey :=
        match c.transformObjectKeys with
        | some f => f key
        | none => key
      let value := jsGet v transformedKey
      match (validator.run value c (getPath transformedKey p)).1 with
      | .ok w =>
        if w ≠ .vUndefined then objectLoop rest v c p (assocSet acc key w) errors
        else objectLoop rest v c p acc errors
      | .err es => objectLoop rest v c p acc (errors ++ es)

/-- The validation body of `object` past the input gate. -/
def objectFields (props : List (String × Validator)) (v : Value) (c : Context) (p : String) :
    VResult :=
  let r := objectLoop props v c p [] []
  if r.2 = [] then .ok (.vObj r.1) else .err r.2

/-- The `object` combinator: reject nullish and non-object inputs, then
validate the declared fields; expose the props for introspection. -/
def object (props : List (String × Validator)) : Validator :=
  .mk
    (fun v c p =>
      ((if isNullish v ∨ jsTypeof v ≠ "object" then typeFailure v p "object"
        else objectFields props v c p), c))
    (some (props.map fun kv => (kv.1, .vld kv.2)))
    none
    none

/-! ### Algebraic combinators -/

/-- The `literal` combinator: strict equality against the stored literal;
exposes the literal for discriminated-union bookkeeping. -/
def literal (value : Value) : Validator :=
  .mk
    (fun v c p =>
      ((if jsStrictEq v value then .ok v
        else failure p ("Expected " ++ prettifyJson value ++ ", got " ++ prettifyJson v)), c))
    none
    (some value)
    none

/-- Spread a value's own enumerable properties into an object, as
`\x7b...target, ...value\x7d` does: objects contribute their fields, arrays and
strings their indexed elements, primitives nothing. -/
def spreadFields : Value → List (String × Value)
  | .vObj fields => fields
  | .vArr items => (items.enum.map fun iv => (natStr iv.1, iv.2))
  | .vStr s => (s.toList.enum.map fun ci => (natStr ci.1, .vStr (String.mk [ci.2])))
  | _ => []

/-- Merge a validated value into the running intersection result by
shallow spread (later fields overwrite in place). -/
def spreadInto (acc : List (String × Value)) (value : Value) : List (String × Value) :=
  (spreadFields value).foldl (fun a kv => assocSet a kv.1 kv.2) acc

/-- The loop of `intersection`: the context object is passed to every
child uncopied, so a child's mutation is visible to the next child. -/
def intersectionLoop (validators : List Validator) (v : Value) (p : String) :
    List (String × Value) → List ValidationError → Context →
    List (String × Value) × List ValidationError × Context :=
  fun result errors c =>
    match validators with
    | [] => (result, errors, c)
    | vl :: rest =>
      let rc := vl.run v c p
      match rc.1 with
      | .ok value => intersectionLoop rest v p (spreadInto result value) errors rc.2
      | .err es => intersectionLoop rest v p result (errors ++ es) rc.2

/-- Merged props of an intersection of object validators
(`Object.assign` over the children's props, later entries overwriting). -/
def mergeAllProps (validators : List Validator) : List (String × PropEntry) :=
  validators.foldl
    (fun acc vl => (vl.props.getD []).foldl (fun a kv => assocSet a kv.1 kv.2) acc)
    []

/-- The `intersection` combinator: validate the same input against every
child, merging successes by shallow right-biased spread and accumulating
every child's errors; when every child exposes props, expose the merged
props. -/
def intersection (validators : List Validator) : Validator :=
  .mk
    (fun v c p =>
      let r := intersectionLoop validators v p [] [] c
      ((if r.2.1 = [] then .ok (.vObj r.1) else .err r.2.1), r.2.2))
    (if validators.all (fun vl => vl.props.isSome) then some (mergeAllProps validators)
     else none)
    none
    none


/-! ### Union -/

/-- Render the error list in the canonical debug form, one line per
error. -/
def errorDebugString (errors : List ValidationError) : String :=
  String.intercalate "\n"
    (errors.map fun e =>
      "At [root" ++ (if e.path = "" then "" else "." ++ e.path) ++ "] " ++ e.message)

/-- The alternative loop of the validator-shaped union: try each child on
a fork (spread copy) of the context, returning the first success verbatim;
collect each failing alternative's error list. -/
def unionTry (validators : List Validator) (v : Value) (c : Context) (p : String) :
    List (List ValidationError) → VResult :=
  fun errors =>
    match validators with
    | [] =>
      let detailString :=
        String.intercalate "\n"
          ((errors.enum).map fun ie =>
            "Union type #" ++ natStr ie.1 ++ " => \n  " ++
              (errorDebugString ie.2).replace "\n" "\n  ")
      failure p
        ("The value " ++ prettifyJson v ++ " \nis not part of the union: \n\n" ++ detailString)
    | vl :: rest =>
      match (vl.run v c p).1 with
      | .ok w => .ok w
      | .err es => unionTry rest v c p (errors ++ [es])

/-- The validator-shaped union: first success wins; on exhaustion one
aggregate error detailing every alternative.  Exposes its alternatives
under `union`. -/
def unionOfValidators (validators : List Validator) : Validator :=
  .mk (fun v c p => (unionTry validators v c p [], c)) none none (some validators)

/-- The literal-shortcut loop: try each wrapped literal on a fork of the
context; first success wins. -/
def unionTryLits (validators : List Validator) (v : Value) (c : Context) (p : String) :
    VResult :=
  match validators with
  | [] => failure p ("The value " ++ prettifyJson v ++ " is not part of the union")
  | vl :: rest =>
    match (vl.run v c p).1 with
    | .ok w => .ok w
    | .err _ => unionTryLits rest v c p

/-- The literal-shortcut union over the already-wrapped literal
validators: flat error on exhaustion; exposes the wrapped validators under
`union`. -/
def unionOfLiterals (validators : List Validator) : Validator :=
  .mk (fun v c p => (unionTryLits validators v c p, c)) none none (some validators)

/-- A literal value as permitted by the `union` literal-shortcut overload
(string, number, boolean, null or the absent sentinel). -/
inductive LitVal : Type where
  | str (s : String) : LitVal
  | num (n : JsNum) : LitVal
  | bool (b : Bool) : LitVal
  | null : LitVal
  | undefinedLit : LitVal

/-- The runtime value of a literal argument. -/
def LitVal.toValue : LitVal → Value
  | .str s => .vStr s
  | .num n => .vNum n
  | .bool b => .vBool b
  | .null => .vNull
  | .undefinedLit => .vUndefined

/-- An argument of the overloaded `union` entry point: a validator or a
bare literal. -/
inductive UnionArg : Type where
  | validator (v : Validator) : UnionArg
  | lit (l : LitVal) : UnionArg

/-- The dispatch probe `probe && typeof probe === "object"`: a validator
is a class instance, hence a truthy value of kind "object"; a bare
literal is probed through its runtime value. -/
def UnionArg.isTruthyObject : UnionArg → Bool
  | .validator _ => true
  | .lit l => jsTruthy l.toValue && (jsTypeof l.toValue = "object")

/-- An argument as used by the validator branch.  A bare literal reaching
this branch is impossible under the overloaded signatures (the source
would throw calling `.validate` on it); it is mapped to its literal
validator, which no claim exercises. -/
def UnionArg.asValidator : UnionArg → Validator
  | .validator v => v
  | .lit l => literal l.toValue

/-- An argument as wrapped by the literal branch (`validators.map(literal)`).
A validator reaching this branch is impossible under the overloaded
signatures; it is mapped to its own literal-wrapped undefined, which no
claim exercises. -/
def UnionArg.asLiteralValidator : UnionArg → Validator
  | .lit l => literal l.toValue
  | .validator _ => literal .vUndefined

/-- The overloaded `union` entry point: probe the first argument; when it
is a truthy object every argument is a validator, otherwise every
argument is wrapped with `literal`. -/
def union (args : List UnionArg) : Validator :=
  if (match args.head? with
      | some probe => probe.isTruthyObject
      | none => false) then
    unionOfValidators (args.map UnionArg.asValidator)
  else
    unionOfLiterals (args.map UnionArg.asLiteralValidator)

/-- `nullable`: this validator, or null, or undefined. -/
def Validator.nullable (vl : Validator) : Validator :=
  union [.validator vl, .validator nullValidator, .validator undefinedValidator]

/-- `optional`: this validator or undefined. -/
def Validator.optional (vl : Validator) : Validator :=
  union [.validator vl, .validator undefinedValidator]

/-- `default`: nullable, then map the null/absent outcomes to the default
value. -/
def Validator.default (vl : Validator) (defaultValue : Value) : Validator :=
  (vl.nullable).map fun v =>
    if v = .vNull ∨ v = .vUndefined then defaultValue else v

/-! ### Discriminated union -/

/-- JavaScript `Map.set`: overwrite in place under SameValueZero key
equality, else append. -/
def mapSet (m : List (Value × Validator)) (key : Value) (vl : Validator) :
    List (Value × Validator) :=
  match m with
  | [] => [(key, vl)]
  | kv :: rest =>
    if jsSameValueZero kv.1 key then (key, vl) :: rest else kv :: mapSet rest key vl

/-- JavaScript `Map.get` under SameValueZero key equality. -/
def mapGet (m : List (Value × Validator)) (key : Value) : Option Validator :=
  match m.find? (fun kv => jsSameValueZero kv.1 key) with
  | some kv => some kv.2
  | none => none

/-- The construction-time lookup table of `discriminatedUnion`: each
member contributes its discriminant literal (or every literal of its
literal union) mapped to itself.  A member whose discriminant field is
missing or not literal-shaped would make the source throw at construction
time; the signatures rule that out, and the model skips such a member. -/
def duTable (typeKey : String) (vs : List Validator) : List (Value × Validator) :=
  vs.foldl
    (fun map validator =>
      match (validator.props.getD []).find? (fun kv => kv.1 = typeKey) with
      | some (_, .vld dv) =>
        match dv.litVal with
        | some l => mapSet map l validator
        | none =>
          (dv.unionVs.getD []).foldl
            (fun m lv =>
              match lv.litVal with
              | some l => mapSet m l validator
              | none => m)
            map
      | _ => map)
    []

/-- The `discriminatedUnion` combinator: reject nullish input; read the
discriminant field; fail on a missing key or an unknown discriminant value
at the child path of the discriminant; otherwise delegate the entire input
to the matched member with the context passed through uncopied. -/
def discriminatedUnion (typeKey : String) (vs : List Validator) : Validator :=
  let validatorByType := duTable typeKey vs
  mkValidator fun v c p =>
    if isNullish v then
      (failure p ("union member is nullish: " ++ jsTemplateStr v), c)
    else
      let typeValue := jsGet v typeKey
      let validator := mapGet validatorByType typeValue
      if typeValue = .vUndefined then
        (failure (getPath typeKey p)
          ("discriminant key (\"" ++ typeKey ++ "\") missing in: " ++ prettifyJson v), c)
      else
        match validator with
        | none =>
          (failure (getPath typeKey p)
            ("discriminant value (\"" ++ typeKey ++ "\": \"" ++ jsTemplateStr typeValue ++
              "\") not part of the union"), c)
        | some m => m.run v c p

/-! ### Key transformation -/

/-- Character class `[A-Z]`. -/
def isUpperAZ (c : Char) : Bool := 'A' ≤ c ∧ c ≤ 'Z'

/-- Character class `[a-z]`. -/
def isLowerAZ (c : Char) : Bool := 'a' ≤ c ∧ c ≤ 'z'

/-- The first substitution `([A-Z]+)([A-Z][a-z])` -> `$1_$2`, applied
globally left to right: a maximal uppercase run of length at least two
followed by a lowercase letter matches, with the underscore inserted
before the run's last uppercase letter; scanning resumes after the
matched text.  The recursion is driven by a fuel argument for structural
termination; every step consumes at least one character, so fuel equal to
the length of the input never runs out. -/
def replaceUpperThenLowerAux : Nat → List Char → List Char
  | 0, cs => cs
  | _ + 1, [] => []
  | fuel + 1, c :: rest =>
    if isUpperAZ c then
      let run := (c :: rest).takeWhile isUpperAZ
      match (c :: rest).dropWhile isUpperAZ with
      | d :: tail =>
        if isLowerAZ d ∧ 2 ≤ run.length then
          run.take (run.length - 1) ++ '_' :: run.drop (run.length - 1) ++
            d :: replaceUpperThenLowerAux fuel tail
        else c :: replaceUpperThenLowerAux fuel rest
      | [] => c :: replaceUpperThenLowerAux fuel rest
    else c :: replaceUpperThenLowerAux fuel rest

def replaceUpperThenLower (cs : List Char) : List Char :=
  replaceUpperThenLowerAux cs.length cs

/-- The character class of the source pattern `([a-z\\\\d])([A-Z])`: inside
a regular-expression literal the doubled escapes denote a literal
backslash (twice) and the letter d, so the class holds the lowercase
letters and the backslash — not the digits. -/
def inLowerClass (c : Char) : Bool := isLowerAZ c ∨ c = '\\'

/-- The second substitution, `$1_$2` over the two-character pattern,
applied globally left to right; scanning resumes after the matched
text. -/
def replaceLowerThenUpper : List Char → List Char
  | [] => []
  | [c] => [c]
  | c :: d :: rest =>
    if inLowerClass c ∧ isUpperAZ d then c :: '_' :: d :: replaceLowerThenUpper rest
    else c :: replaceLowerThenUpper (d :: rest)

/-- The built-in camelCase-to-snake_case key transformation: the two
global substitutions followed by lowercasing (ASCII case fold; the
source's toLowerCase agrees on the characters involved). -/
def snakeCaseTransformation (key : String) : String :=
  String.mk ((replaceLowerThenUpper (replaceUpperThenLower key.toList)).map Char.toLower)

/-! ### Extra validators -/

/-- The refinement of `numberFromString`: parse with the `Number` builtin
and reject NaN outcomes.  The upstream `string` validator guarantees a
string input; the model applies the same coercions `Number` would. -/
def numberFromStringFn (value : Value) : RefineResult :=
  let parsed := jsToNumberValue value
  if parsed = .nan then
    .err ("\"" ++ jsTemplateStr value ++ "\" is not a stringified number")
  else .ok (.vNum parsed)

/-- `numberFromString`: a string refined by numeric parsing. -/
def numberFromString : Validator := string.and numberFromStringFn

/-- The generic `minSize` refinement: compare the value's notion of size
(string length, array length, object own-key count; the Map/Set cases of
the source have no counterpart in the JSON value model) against the
bound. -/
def minSize (bound : ℚ) : Value → RefineResult := fun value =>
  let size : ℚ :=
    match value with
    | .vStr s => s.length
    | .vArr items => items.length
    | .vObj fields => fields.length
    | _ => 0
  if bound ≤ size then .ok value
  else
    .err ("Expected a min size of " ++ ratToJsString bound ++ ", got " ++ ratToJsString size)


/-- The refinement chain of the error-customization ordering property:
`string.withError(f1).and(minSize(2)).withError(f2).filter(pred).withError(f3)`. -/
def c1chain (f1 f2 f3 : Value → String) (pred : Value → Bool) : Validator :=
  ((((string.withError f1).and (minSize 2)).withError f2).filter pred).withError f3

/-! ### Compositional characterizations used by the results -/

/-- The per-element validation results of an array run starting at a given
index: each element is validated against a fork of the context at the
child path built from its index. -/
def arrayResults (validator : Validator) (c : Context) (p : String)
    (items : List Value) (start : Nat) : List VResult :=
  (List.enumFrom start items).map
    (fun iv => (validator.run iv.2 c (getPath (natStr iv.1) p)).1)

/-- The per-child validation results of an intersection run: every child
receives the same input and path, and the context threads through the
children uncopied. -/
def intersectionResults (validators : List Validator) (v : Value) (p : String)
    (c : Context) : List VResult × Context :=
  match validators with
  | [] => ([], c)
  | vl :: rest =>
    let rc := vl.run v c p
    let rs := intersectionResults rest v p rc.2
    (rc.1 :: rs.1, rs.2)

/-- Fold the successful results of an intersection into the merged output
object by shallow right-biased spread. -/
def mergeOks (rs : List VResult) (init : List (String × Value)) : List (String × Value) :=
  rs.foldl
    (fun acc r =>
      match r with
      | .ok w => spreadInto acc w
      | .err _ => acc)
    init


/-! ### Basic run lemmas -/

/-- Unfolding the validation function of a structurally built validator. -/
theorem run_mk (r) (pr) (l) (u) : (Validator.mk r pr l u).run = r := rfl

/-- Unfolding the validation function of a plain validator. -/
theorem run_mkValidator (r) : (mkValidator r).run = r := rfl

/-- Unfolding the validation function of a primitive validator. -/
theorem run_primitive (n : String) (f : Value → Context → String → VResult × Context) :
    (primitive n f).run = f := rfl

/-- One step of the `literal` validator. -/
theorem literal_run (x v : Value) (c : Context) (p : String) :
    (literal x).run v c p =
      ((if jsStrictEq v x then .ok v
        else failure p ("Expected " ++ prettifyJson x ++ ", got " ++ prettifyJson v)), c) := rfl

/-- One step of the `null` primitive. -/
theorem nullValidator_run (v : Value) (c : Context) (p : String) :
    nullValidator.run v c p = ((if v = .vNull then .ok v else typeFailure v p "null"), c) := rfl

/-- One step of the `undefined` primitive. -/
theorem undefinedValidator_run (v : Value) (c : Context) (p : String) :
    undefinedValidator.run v c p =
      ((if v = .vUndefined then .ok v else typeFailure v p "undefined"), c) := rfl

/-- The `string` primitive rejects every non-string input with the type
failure. -/
theorem string_run_nonstr (v : Value) (c : Context) (p : String) (h : jsTypeof v ≠ "string") :
    string.run v c p = (typeFailure v p "string", c) := by
  cases v <;> first
    | rfl
    | (exfalso; exact h rfl)

/-- The `string` primitive accepts every string unchanged. -/
theorem string_run_str (s : String) (c : Context) (p : String) :
    string.run (.vStr s) c p = (.ok (.vStr s), c) := rfl

/-- Characterization of one `and` step: a success feeds the refinement,
whose string error lands at the current path; a failure passes through.
The context is never mutated by the refinement itself. -/
theorem and_run (vl : Validator) (fn : Value → RefineResult) (v : Value) (c : Context) (p : String) :
    (vl.and fn).run v c p =
      (match (vl.run v c p).1 with
       | .ok value =>
         match fn value with
         | .ok b => (.ok b, (vl.run v c p).2)
         | .err e => (failure p e, (vl.run v c p).2)
       | .err es => (.err es, (vl.run v c p).2)) := by
  rw [Validator.and, transform, run_mkValidator]
  cases hr : (vl.run v c p).1 with
  | ok value =>
    cases hf : fn value with
    | ok b => simp [hr, hf]
    | err e => simp [hr, hf]
  | err es => simp [hr]

/-- Characterization of one `withError` step: a success, or a chain that
already claimed its custom error, passes through unchanged; otherwise the
flag is set and the failure is replaced by one freshly computed error at
the current path. -/
theorem withError_run (vl : Validator) (f : Value → String) (v : Value) (c : Context) (p : String) :
    (vl.withError f).run v c p =
      (if (vl.run v c p).1.isOkB = true ∨ (vl.run v c p).2.hadCustomError = true
       then (vl.run v c p)
       else (failure p (f v), { (vl.run v c p).2 with hadCustomError := true })) := by
  rw [Validator.withError, transform, run_mkValidator]
  by_cases hc : (vl.run v c p).1.isOkB = true ∨ (vl.run v c p).2.hadCustomError = true
  · rw [if_pos hc]
    simp only
    rw [if_pos (by simpa using hc)]
    cases hr : (vl.run v c p).1 with
    | ok w =>
      simp only [VResult.toTResult]
      rw [← hr]
    | err es =>
      simp only [VResult.toTResult]
      rw [← hr]
  · rw [if_neg hc]
    simp only
    rw [if_neg (by simpa using hc)]

/-- Characterization of one `mapErrors` step, governed by the same
first-customization-wins rule as `withError`. -/
theorem mapErrors_run (vl : Validator) (g : List ValidationError → List ValidationError)
    (v : Value) (c : Context) (p : String) :
    (vl.mapErrors g).run v c p =
      (if (vl.run v c p).1.isOkB = true ∨ (vl.run v c p).2.hadCustomError = true
       then (vl.run v c p)
       else (.err (g (vl.run v c p).1.errorsOf),
             { (vl.run v c p).2 with hadCustomError := true })) := by
  rw [Validator.mapErrors, transform, run_mkValidator]
  by_cases hc : (vl.run v c p).1.isOkB = true ∨ (vl.run v c p).2.hadCustomError = true
  · rw [if_pos hc]
    simp only
    rw [if_pos (by simpa using hc)]
    cases hr : (vl.run v c p).1 with
    | ok w =>
      simp only [VResult.toTResult]
      rw [← hr]
    | err es =>
      simp only [VResult.toTResult]
      rw [← hr]
  · rw [if_neg hc]
    simp only
    rw [if_neg (by simpa using hc)]

/-! ### The C1 chain, step by step -/

/-- The `minSize 2` refinement rejects a short string. -/
theorem minSize_short (s : String) (h : s.length < 2) :
    minSize 2 (.vStr s) =
      .err ("Expected a min size of " ++ ratToJsString 2 ++ ", got " ++
        ratToJsString ((s.length : ℚ))) := by
  have hn : ¬ ((2 : ℚ) ≤ ((s.length : ℚ))) := by
    exact_mod_cast Nat.not_le.mpr h
  simp [minSize, hn]

/-- The `minSize 2` refinement accepts a long enough string unchanged. -/
theorem minSize_long (s : String) (h : 2 ≤ s.length) :
    minSize 2 (.vStr s) = .ok (.vStr s) := by
  have hn : ((2 : ℚ) ≤ ((s.length : ℚ))) := by exact_mod_cast h
  simp [minSize, hn]

/-- On a non-string input the first `withError` claims the error slot, so
the chain reports the first customization. -/
theorem c1chain_nonstring (f1 f2 f3 : Value → String) (pred : Value → Bool) (v : Value)
    (h : jsTypeof v ≠ "string") :
    (c1chain f1 f2 f3 pred).validate v = .err [⟨f1 v, ""⟩] := by
  have h1 := string_run_nonstr v defaultContext rootPath h
  have h2 : (string.withError f1).run v defaultContext rootPath =
      (failure rootPath (f1 v), { defaultContext with hadCustomError := true }) := by
    rw [withError_run, h1]
    rw [if_neg (by simp [VResult.isOkB, typeFailure, defaultContext])]
  have h3 : ((string.withError f1).and (minSize 2)).run v defaultContext rootPath =
      (failure rootPath (f1 v), { defaultContext with hadCustomError := true }) := by
    rw [and_run, h2]
    simp [failure]
  have h4 : (((string.withError f1).and (minSize 2)).withError f2).run v defaultContext rootPath =
      (failure rootPath (f1 v), { defaultContext with hadCustomError := true }) := by
    rw [withError_run, h3]
    rw [if_pos (Or.inr rfl)]
  have h5 : ((((string.withError f1).and (minSize 2)).withError f2).filter pred).run v
        defaultContext rootPath =
      (failure rootPath (f1 v), { defaultContext with hadCustomError := true }) := by
    rw [Validator.filter, and_run, h4]
    simp [failure]
  have h6 : (c1chain f1 f2 f3 pred).run v defaultContext rootPath =
      (failure rootPath (f1 v), { defaultContext with hadCustomError := true }) := by
    rw [c1chain, withError_run, h5]
    rw [if_pos (Or.inr rfl)]
  rw [Validator.validate, h6]
  rfl

/-- On a too-short string the `minSize` failure is the first failure, so
the second `withError` claims the slot. -/
theorem c1chain_short (f1 f2 f3 : Value → String) (pred : Value → Bool) (s : String)
    (h : s.length < 2) :
    (c1chain f1 f2 f3 pred).validate (.vStr s) = .err [⟨f2 (.vStr s), ""⟩] := by
  have h2 : (string.withError f1).run (.vStr s) defaultContext rootPath =
      (.ok (.vStr s), defaultContext) := by
    rw [withError_run, string_run_str]
    have hc : ((VResult.ok (Value.vStr s), defaultContext).1.isOkB = true ∨
        (VResult.ok (Value.vStr s), defaultContext).2.hadCustomError = true) := Or.inl rfl
    rw [if_pos hc]
  have h3 : ((string.withError f1).and (minSize 2)).run (.vStr s) defaultContext rootPath =
      (failure rootPath ("Expected a min size of " ++ ratToJsString 2 ++ ", got " ++
          ratToJsString ((s.length : ℚ))), defaultContext) := by
    rw [and_run, h2]
    simp [minSize_short s h]
  have h4 : (((string.withError f1).and (minSize 2)).withError f2).run (.vStr s)
        defaultContext rootPath =
      (failure rootPath (f2 (.vStr s)), { defaultContext with hadCustomError := true }) := by
    rw [withError_run, h3]
    rw [if_neg (by simp [VResult.isOkB, failure, defaultContext])]
  have h5 : ((((string.withError f1).and (minSize 2)).withError f2).filter pred).run (.vStr s)
        defaultContext rootPath =
      (failure rootPath (f2 (.vStr s)), { defaultContext with hadCustomError := true }) := by
    rw [Validator.filter, and_run, h4]
    simp [failure]
  have h6 : (c1chain f1 f2 f3 pred).run (.vStr s) defaultContext rootPath =
      (failure rootPath (f2 (.vStr s)), { defaultContext with hadCustomError := true }) := by
    rw [c1chain, withError_run, h5]
    rw [if_pos (Or.inr rfl)]
  rw [Validator.validate, h6]
  rfl

/-- On a long-enough string rejected by the filter, the filter failure is
the first failure, so the third `withError` claims the slot. -/
theorem c1chain_filtered (f1 f2 f3 : Value → String) (pred : Value → Bool) (s : String)
    (hlen : 2 ≤ s.length) (hpred : pred (.vStr s) = false) :
    (c1chain f1 f2 f3 pred).validate (.vStr s) = .err [⟨f3 (.vStr s), ""⟩] := by
  have h2 : (string.withError f1).run (.vStr s) defaultContext rootPath =
      (.ok (.vStr s), defaultContext) := by
    rw [withError_run, string_run_str]
    have hc : ((VResult.ok (Value.vStr s), defaultContext).1.isOkB = true ∨
        (VResult.ok (Value.vStr s), defaultContext).2.hadCustomError = true) := Or.inl rfl
    rw [if_pos hc]
  have h3 : ((string.withError f1).and (minSize 2)).run (.vStr s) defaultContext rootPath =
      (.ok (.vStr s), defaultContext) := by
    rw [and_run, h2]
    simp [minSize_long s hlen]
  have h4 : (((string.withError f1).and (minSize 2)).withError f2).run (.vStr s)
        defaultContext rootPath = (.ok (.vStr s), defaultContext) := by
    rw [withError_run, h3]
    have hc2 : ((VResult.ok (Value.vStr s), defaultContext).1.isOkB = true ∨
        (VResult.ok (Value.vStr s), defaultContext).2.hadCustomError = true) := Or.inl rfl
    rw [if_pos hc2]
  have h5 : ((((string.withError f1).and (minSize 2)).withError f2).filter pred).run (.vStr s)
        defaultContext rootPath =
      (failure rootPath ("filter error: " ++ prettifyJson (.vStr s) ++ "\""), defaultContext) := by
    rw [Validator.filter, and_run, h4]
    simp only [hpred]
    simp
  have h6 : (c1chain f1 f2 f3 pred).run (.vStr s) defaultContext rootPath =
      (failure rootPath (f3 (.vStr s)), { defaultContext with hadCustomError := true }) := by
    rw [c1chain, withError_run, h5]
    rw [if_neg (by simp [VResult.isOkB, failure, defaultContext])]
  rw [Validator.validate, h6]
  rfl


/-! ### Array and intersection characterizations -/

/-- The accumulator loop of `array` equals the compositional description:
successes appended in order, error lists flattened in order. -/
theorem arrayLoop_eq (validator : Validator) (c : Context) (p : String) :
    ∀ (items : List Value) (i : Nat) (acc : List Value) (errors : List ValidationError),
    arrayLoop validator c p items i acc errors =
      (acc ++ (arrayResults validator c p items i).filterMap VResult.okValue,
       errors ++ ((arrayResults validator c p items i).map VResult.errorsOf).flatten)
  | [], i, acc, errors => by
      simp [arrayLoop, arrayResults]
  | item :: rest, i, acc, errors => by
      have ih1 := arrayLoop_eq validator c p rest (i + 1)
      rw [arrayLoop]
      cases hr : (validator.run item c (getPath (natStr i) p)).1 with
      | ok w => simp [ih1, arrayResults, List.enumFrom, hr, VResult.okValue, VResult.errorsOf]
      | err es => simp [ih1, arrayResults, List.enumFrom, hr, VResult.okValue, VResult.errorsOf]

/-- A run of `array` on a list input: every element is validated at the
child path of its index against a fork of the context; the outcome is the
fresh list of successes when the flattened error list is empty, and the
flattened error list otherwise. -/
theorem array_run_eq (validator : Validator) (items : List Value) (c : Context) (p : String) :
    (array validator).run (.vArr items) c p =
      ((if ((arrayResults validator c p items 0).map VResult.errorsOf).flatten = []
        then .ok (.vArr ((arrayResults validator c p items 0).filterMap VResult.okValue))
        else .err ((arrayResults validator c p items 0).map VResult.errorsOf).flatten), c) := by
  simp [array, run_mkValidator, arrayLoop_eq]

/-- The accumulator loop of `intersection` equals the compositional
description over the threaded child results. -/
theorem intersectionLoop_eq (v : Value) (p : String) :
    ∀ (validators : List Validator) (result : List (String × Value))
      (errors : List ValidationError) (c : Context),
    intersectionLoop validators v p result errors c =
      (mergeOks (intersectionResults validators v p c).1 result,
       errors ++ (((intersectionResults validators v p c).1).map VResult.errorsOf).flatten,
       (intersectionResults validators v p c).2)
  | [], result, errors, c => by simp [intersectionLoop, intersectionResults, mergeOks]
  | vl :: rest, result, errors, c => by
      have ih := intersectionLoop_eq v p rest
      rw [intersectionLoop, intersectionResults]
      cases hr : (vl.run v c p).1 with
      | ok w => simp [ih, hr, mergeOks, VResult.errorsOf]
      | err es => simp [ih, hr, mergeOks, VResult.errorsOf]

/-- A run of `intersection`: every child validates the same input at the
same path (the context threading through uncopied); the outcome merges the
successes by right-biased spread when no child produced an error, and is
the concatenation of every child's errors otherwise. -/
theorem intersection_run_eq (validators : List Validator) (v : Value) (c : Context) (p : String) :
    (intersection validators).run v c p =
      ((if (((intersectionResults validators v p c).1).map VResult.errorsOf).flatten = []
        then .ok (.vObj (mergeOks (intersectionResults validators v p c).1 []))
        else .err (((intersectionResults validators v p c).1).map VResult.errorsOf).flatten),
       (intersectionResults validators v p c).2) := by
  simp [intersection, run_mk, intersectionLoop_eq]

/-- When every failing child reports at least one error (the library's
failure payloads are never empty), an intersection succeeds exactly when
every child succeeds. -/
theorem intersection_ok_iff (validators : List Validator) (v : Value) (c : Context) (p : String)
    (H : ∀ r ∈ (intersectionResults validators v p c).1, r.isOkB = false → r.errorsOf ≠ []) :
    (((intersection validators).run v c p).1.isOkB = true) ↔
      ∀ r ∈ (intersectionResults validators v p c).1, r.isOkB = true := by
  rw [intersection_run_eq]
  have key : ((((intersectionResults validators v p c).1).map VResult.errorsOf).flatten = []) ↔
      (∀ r ∈ (intersectionResults validators v p c).1, r.isOkB = true) := by
    rw [List.flatten_eq_nil_iff]
    constructor
    · intro h r hr
      cases hr2 : r with
      | ok w => rfl
      | err es =>
        exfalso
        apply H r hr
        · rw [hr2]; rfl
        · have h2 := h (VResult.errorsOf r) (List.mem_map_of_mem _ hr)
          rw [hr2] at h2 ⊢
          simpa [VResult.errorsOf] using h2
    · intro h x hx
      rw [List.mem_map] at hx
      obtain ⟨r, hr, rfl⟩ := hx
      have h3 := h r hr
      cases r with
      | ok w => rfl
      | err es => simp [VResult.isOkB] at h3
  by_cases hf : (((intersectionResults validators v p c).1).map VResult.errorsOf).flatten = []
  · simp only [hf, if_pos, VResult.isOkB, true_iff]
    exact key.mp hf
  · simp only [hf, if_neg, VResult.isOkB, false_iff, not_forall]
    have h4 : ¬ (∀ r ∈ (intersectionResults validators v p c).1, r.isOkB = true) :=
      fun hAll => hf (key.mpr hAll)
    simpa using h4

/-! ### Object characterization -/

/-- Membership after a JavaScript property write: an entry of the result
was already present or is the written entry. -/
theorem mem_assocSet {α : Type} :
    ∀ (l : List (String × α)) (key : String) (a : α) (kv : String × α),
    kv ∈ assocSet l key a → kv ∈ l ∨ kv = (key, a)
  | [], key, a, kv => by simp [assocSet]
  | hd :: rest, key, a, kv => by
    rw [assocSet]
    by_cases h : hd.1 = key
    · rw [if_pos h]
      intro hm
      rcases List.mem_cons.mp hm with h1 | h1
      · exact Or.inr h1
      · exact Or.inl (List.mem_cons_of_mem _ h1)
    · rw [if_neg h]
      intro hm
      rcases List.mem_cons.mp hm with h1 | h1
      · exact Or.inl (by simp [h1])
      · rcases mem_assocSet rest key a kv h1 with h2 | h2
        · exact Or.inl (List.mem_cons_of_mem _ h2)
        · exact Or.inr h2

/-- Every entry produced by the object field loop either was in the
accumulator already or sits under a declared key with a defined value. -/
theorem objectLoop_mem (v : Value) (c : Context) (p : String) :
    ∀ (props : List (String × Validator)) (acc : List (String × Value))
      (errors : List ValidationError) (kv : String × Value),
    kv ∈ (objectLoop props v c p acc errors).1 →
      kv ∈ acc ∨ (kv.1 ∈ props.map Prod.fst ∧ kv.2 ≠ .vUndefined)
  | [], acc, errors, kv => by
    simp [objectLoop]
  | (key, validator) :: rest, acc, errors, kv => by
    have ih := objectLoop_mem v c p rest
    rw [objectLoop]
    split
    next w heq =>
      split
      next hw =>
        intro hm
        rcases ih (assocSet acc key w) errors kv hm with h1 | h1
        · rcases mem_assocSet acc key w kv h1 with h2 | h2
          · exact Or.inl h2
          · refine Or.inr ⟨?_, ?_⟩
            · rw [h2]; simp
            · rw [h2]; simpa using hw
        · exact Or.inr ⟨by simpa using Or.inr h1.1, h1.2⟩
      next hw =>
        intro hm
        rcases ih acc errors kv hm with h1 | h1
        · exact Or.inl h1
        · exact Or.inr ⟨by simpa using Or.inr h1.1, h1.2⟩
    next es heq =>
      intro hm
      rcases ih acc (errors ++ es) kv hm with h1 | h1
      · exact Or.inl h1
      · exact Or.inr ⟨by simpa using Or.inr h1.1, h1.2⟩

/-! ### Union and discriminated-union lemmas -/

/-- No bare literal probes as a truthy object: null has the "object"
runtime kind but is falsy, and the other literal kinds are not
"object". -/
theorem litval_not_truthy_object : ∀ l : LitVal, UnionArg.isTruthyObject (.lit l) = false := by
  intro l
  cases l with
  | str s => simp [UnionArg.isTruthyObject, LitVal.toValue, jsTypeof]
  | num n => simp [UnionArg.isTruthyObject, LitVal.toValue, jsTypeof]
  | bool b => simp [UnionArg.isTruthyObject, LitVal.toValue, jsTypeof]
  | null => simp [UnionArg.isTruthyObject, LitVal.toValue, jsTruthy]
  | undefinedLit => simp [UnionArg.isTruthyObject, LitVal.toValue, jsTruthy]

/-- When the first argument is a bare literal, `union` takes the literal
branch, wrapping every argument with `literal`. -/
theorem union_lit_dispatch (l : LitVal) (args : List UnionArg) :
    union (.lit l :: args) =
      unionOfLiterals ((UnionArg.lit l :: args).map UnionArg.asLiteralValidator) := by
  rw [union]
  rw [if_neg]
  simp [litval_not_truthy_object]

/-- When the first argument is a validator, `union` takes the validator
branch. -/
theorem union_validators_dispatch (vl : Validator) (args : List UnionArg) :
    union (.validator vl :: args) =
      unionOfValidators ((UnionArg.validator vl :: args).map UnionArg.asValidator) := by
  rw [union]
  simp [UnionArg.isTruthyObject]

/-- `nullable` is the validator union of the validator itself, null and
undefined. -/
theorem nullable_eq (vl : Validator) :
    vl.nullable = unionOfValidators [vl, nullValidator, undefinedValidator] := by
  rw [Validator.nullable, union_validators_dispatch]
  simp [UnionArg.asValidator]

/-- When the underlying validator rejects null, `nullable` accepts null
through its null alternative, with the outer context unchanged. -/
theorem nullable_run_null_of_fail (vl : Validator) (c : Context) (p : String)
    (h : (vl.run .vNull c p).1.isOkB = false) :
    (vl.nullable).run .vNull c p = (.ok .vNull, c) := by
  rw [nullable_eq, unionOfValidators, run_mk]
  cases hr : (vl.run Value.vNull c p).1 with
  | ok w => rw [hr] at h; simp [VResult.isOkB] at h
  | err es =>
    rw [unionTry]
    simp only [hr]
    rw [unionTry]
    simp [nullValidator_run]

/-- When the underlying validator rejects undefined, `nullable` accepts
undefined through its undefined alternative. -/
theorem nullable_run_undef_of_fail (vl : Validator) (c : Context) (p : String)
    (h : (vl.run .vUndefined c p).1.isOkB = false) :
    (vl.nullable).run .vUndefined c p = (.ok .vUndefined, c) := by
  rw [nullable_eq, unionOfValidators, run_mk]
  cases hr : (vl.run Value.vUndefined c p).1 with
  | ok w => rw [hr] at h; simp [VResult.isOkB] at h
  | err es =>
    rw [unionTry]
    simp only [hr]
    rw [unionTry]
    simp only [nullValidator_run]
    rw [if_neg (by simp)]
    simp [unionTry, undefinedValidator_run, typeFailure]

/-- When the underlying validator accepts the input, `nullable` returns
its success verbatim. -/
theorem nullable_run_of_ok (vl : Validator) (v : Value) (c : Context) (p : String) (w : Value)
    (h : (vl.run v c p).1 = .ok w) :
    (vl.nullable).run v c p = (.ok w, c) := by
  rw [nullable_eq, unionOfValidators, run_mk]
  simp only [unionTry]
  simp [h]

/-- `default` maps a successful `nullable` outcome, replacing a nullish
output value by the default. -/
theorem default_run_of_nullable_ok (vl : Validator) (d : Value) (v : Value) (c : Context)
    (p : String) (w : Value) (h : (vl.nullable).run v c p = (.ok w, c)) :
    (vl.default d).run v c p =
      (.ok (if w = .vNull ∨ w = .vUndefined then d else w), c) := by
  rw [Validator.default, Validator.map, and_run, h]

/-- The nullish gate of `discriminatedUnion`. -/
theorem du_nullish (typeKey : String) (vs : List Validator) (v : Value) (c : Context) (p : String)
    (h : isNullish v = true) :
    (discriminatedUnion typeKey vs).run v c p =
      (failure p ("union member is nullish: " ++ jsTemplateStr v), c) := by
  rw [discriminatedUnion]
  simp only [run_mkValidator]
  rw [if_pos h]

/-- The missing-discriminant failure of `discriminatedUnion`. -/
theorem du_missing (typeKey : String) (vs : List Validator) (v : Value) (c : Context) (p : String)
    (h : isNullish v = false) (h2 : jsGet v typeKey = .vUndefined) :
    (discriminatedUnion typeKey vs).run v c p =
      (failure (getPath typeKey p)
        ("discriminant key (\"" ++ typeKey ++ "\") missing in: " ++ prettifyJson v), c) := by
  rw [discriminatedUnion]
  simp only [run_mkValidator]
  rw [if_neg (by simp [h]), if_pos h2]

/-- The unknown-discriminant failure of `discriminatedUnion`. -/
theorem du_unknown (typeKey : String) (vs : List Validator) (v : Value) (c : Context) (p : String)
    (h : isNullish v = false) (h2 : jsGet v typeKey ≠ .vUndefined)
    (h3 : mapGet (duTable typeKey vs) (jsGet v typeKey) = none) :
    (discriminatedUnion typeKey vs).run v c p =
      (failure (getPath typeKey p)
        ("discriminant value (\"" ++ typeKey ++ "\": \"" ++ jsTemplateStr (jsGet v typeKey) ++
          "\") not part of the union"), c) := by
  rw [discriminatedUnion]
  simp only [run_mkValidator]
  rw [if_neg (by simp [h]), if_neg h2, h3]

/-- Delegation of `discriminatedUnion` to the matched member, context
passed through uncopied. -/
theorem du_match (typeKey : String) (vs : List Validator) (v : Value) (c : Context) (p : String)
    (m : Validator) (h : isNullish v = false) (h2 : jsGet v typeKey ≠ .vUndefined)
    (h3 : mapGet (duTable typeKey vs) (jsGet v typeKey) = some m) :
    (discriminatedUnion typeKey vs).run v c p = m.run v c p := by
  rw [discriminatedUnion]
  simp only [run_mkValidator]
  rw [if_neg (by simp [h]), if_neg h2, h3]

/-! ### Remaining per-claim building blocks -/

/-- The object gate lets an array input through to field validation. -/
theorem object_run_array (props : List (String × Validator)) (xs : List Value) (c : Context)
    (p : String) :
    (object props).run (.vArr xs) c p = (objectFields props (.vArr xs) c p, c) := by
  rw [object, run_mk]
  rw [if_neg (by simp [isNullish, jsTypeof])]

/-- Full characterization of `numberFromString`: non-strings fail with the
string type error; a string succeeds with its parsed number exactly when
the parse is not NaN, and fails with the stringified-number message
otherwise. -/
theorem numberFromString_run (value : Value) (c : Context) (p : String) :
    numberFromString.run value c p =
      ((match value with
        | .vStr s =>
          match jsStringToNumber s with
          | .nan => .err [⟨"\"" ++ s ++ "\" is not a stringified number", p⟩]
          | n => .ok (.vNum n)
        | v => typeFailure v p "string"), c) := by
  rw [numberFromString, and_run]
  cases value with
  | vStr s =>
    rw [string_run_str]
    simp only
    rw [numberFromStringFn]
    simp only [jsToNumberValue]
    cases hn : jsStringToNumber s with
    | nan => simp [failure, jsTemplateStr]
    | inf b => simp [hn]
    | fin q => simp [hn]
  | vNull => rfl
  | vUndefined => rfl
  | vNum n => rfl
  | vBool b => rfl
  | vArr items => rfl
  | vObj fields => rfl

/-- The literal union of null, "hello", true and 33 accepts exactly the
strict-equality matches of those four values. -/
theorem unionExample_accepts (value : Value) :
    ((union [.lit .null, .lit (.str "hello"), .lit (.bool true),
        .lit (.num (.fin 33))]).validate value).isOkB =
      (jsStrictEq value .vNull || jsStrictEq value (.vStr "hello") ||
        jsStrictEq value (.vBool true) || jsStrictEq value (.vNum (.fin 33))) := by
  rw [Validator.validate, union_lit_dispatch]
  simp only [List.map, UnionArg.asLiteralValidator, LitVal.toValue]
  rw [unionOfLiterals, run_mk]
  cases h1 : jsStrictEq value Value.vNull <;>
    cases h2 : jsStrictEq value (Value.vStr "hello") <;>
      cases h3 : jsStrictEq value (Value.vBool true) <;>
        cases h4 : jsStrictEq value (Value.vNum (.fin 33)) <;>
          simp [unionTryLits, literal_run, h1, h2, h3, h4, VResult.isOkB, failure]


/-! ### The claims -/

/-- C1: first-customization-wins.  Every `withError` step returns the
upstream result unchanged when it is a success or when the context's
customization flag is already set, and otherwise sets the flag and
replaces the failure with the freshly computed error at the current path;
`mapErrors` behaves the same over the structured error list; and the chain
`string.withError(f1).and(minSize(2)).withError(f2).filter(pred).withError(f3)`
reports f1 on a non-string input, f2 on a too-short string, and f3 on a
long-enough string that fails the filter. -/
theorem C1_first_customization_wins :
    (∀ (vl : Validator) (f : Value → String) (v : Value) (c : Context) (p : String),
      (vl.withError f).run v c p =
        (if (vl.run v c p).1.isOkB = true ∨ (vl.run v c p).2.hadCustomError = true
         then (vl.run v c p)
         else (failure p (f v), { (vl.run v c p).2 with hadCustomError := true }))) ∧
    (∀ (vl : Validator) (g : List ValidationError → List ValidationError) (v : Value)
        (c : Context) (p : String),
      (vl.mapErrors g).run v c p =
        (if (vl.run v c p).1.isOkB = true ∨ (vl.run v c p).2.hadCustomError = true
         then (vl.run v c p)
         else (.err (g (vl.run v c p).1.errorsOf),
               { (vl.run v c p).2 with hadCustomError := true }))) ∧
    (∀ (f1 f2 f3 : Value → String) (pred : Value → Bool) (v : Value),
      jsTypeof v ≠ "string" →
        (c1chain f1 f2 f3 pred).validate v = .err [⟨f1 v, ""⟩]) ∧
    (∀ (f1 f2 f3 : Value → String) (pred : Value → Bool) (s : String),
      s.length < 2 →
        (c1chain f1 f2 f3 pred).validate (.vStr s) = .err [⟨f2 (.vStr s), ""⟩]) ∧
    (∀ (f1 f2 f3 : Value → String) (pred : Value → Bool) (s : String),
      2 ≤ s.length → pred (.vStr s) = false →
        (c1chain f1 f2 f3 pred).validate (.vStr s) = .err [⟨f3 (.vStr s), ""⟩]) :=
  ⟨withError_run, mapErrors_run, c1chain_nonstring, c1chain_short, c1chain_filtered⟩

/-- Witness for C1: the chain with messages E1/E2/E3 and an
always-false filter reports E1 on a boolean input, E2 on "a", and E3 on
"ab". -/
theorem C1_first_customization_wins_witness :
    (jsTypeof (Value.vBool true) ≠ "string" ∧
      (c1chain (fun _ => "E1") (fun _ => "E2") (fun _ => "E3") (fun _ => false)).validate
          (Value.vBool true) = .err [⟨"E1", ""⟩]) ∧
    ("a".length < 2 ∧
      (c1chain (fun _ => "E1") (fun _ => "E2") (fun _ => "E3") (fun _ => false)).validate
          (Value.vStr "a") = .err [⟨"E2", ""⟩]) ∧
    (2 ≤ "ab".length ∧
      (c1chain (fun _ => "E1") (fun _ => "E2") (fun _ => "E3") (fun _ => false)).validate
          (Value.vStr "ab") = .err [⟨"E3", ""⟩]) :=
  ⟨⟨by decide, C1_first_customization_wins.2.2.1 _ _ _ _ _ (by decide)⟩,
   ⟨by decide, C1_first_customization_wins.2.2.2.1 _ _ _ _ _ (by decide)⟩,
   ⟨by decide, C1_first_customization_wins.2.2.2.2 _ _ _ _ _ (by decide) rfl⟩⟩

/-- C2: a successful `object` validation outputs an object whose every
entry sits under a key declared in props and holds a defined value —
undeclared input keys are stripped and absent-valued fields are omitted
rather than stored as explicit undefined entries. -/
theorem C2_object_strips_undeclared_and_absent :
    ∀ (props : List (String × Validator)) (v : Value) (c : Context) (p : String) (out : Value),
    ((object props).run v c p).1 = .ok out →
      ∃ fields, out = .vObj fields ∧
        ∀ kv ∈ fields, kv.1 ∈ props.map Prod.fst ∧ kv.2 ≠ Value.vUndefined := by
  intro props v c p out h
  rw [object, run_mk] at h
  by_cases hg : isNullish v = true ∨ jsTypeof v ≠ "object"
  · rw [if_pos hg] at h
    simp [typeFailure] at h
  · rw [if_neg hg] at h
    rw [objectFields] at h
    by_cases he : (objectLoop props v c p [] []).2 = []
    · rw [if_pos he] at h
      refine ⟨(objectLoop props v c p [] []).1, ?_, ?_⟩
      · exact (VResult.ok.injEq _ _ ▸ h.symm)
      · intro kv hkv
        rcases objectLoop_mem v c p props [] [] kv hkv with h1 | h1
        · simp at h1
        · exact h1
    · rw [if_neg he] at h
      simp at h

/-- Witness for C2: validating an object carrying an undeclared key "b"
against the schema with the single field "a" succeeds, and the output's
entries all sit under declared keys with defined values. -/
theorem C2_object_strips_undeclared_and_absent_witness :
    (((object [("a", number)]).run
        (Value.vObj [("a", Value.vNum (.fin 1)), ("b", Value.vBool true)])
        defaultContext rootPath).1 = .ok (.vObj [("a", Value.vNum (.fin 1))])) ∧
    (∃ fields, Value.vObj [("a", Value.vNum (.fin 1))] = .vObj fields ∧
      ∀ kv ∈ fields, kv.1 ∈ ([("a", number)].map Prod.fst) ∧ kv.2 ≠ Value.vUndefined) :=
  ⟨by decide,
   C2_object_strips_undeclared_and_absent [("a", number)]
     (Value.vObj [("a", Value.vNum (.fin 1)), ("b", Value.vBool true)])
     defaultContext rootPath (.vObj [("a", Value.vNum (.fin 1))]) (by decide)⟩

/-- C3: in the source as written, the second substitution's character
class `[a-z\\\\d]` holds the lowercase letters and a literal backslash, not
the digits, so a digit immediately followed by an uppercase letter does
not receive an underscore: "a2B" maps to "a2b" (not "a2_b"), while the
lowercase case "aB" does map to "a_b". -/
theorem C3_snake_case_digit_not_underscored :
    snakeCaseTransformation "a2B" = "a2b" ∧
    snakeCaseTransformation "aB" = "a_b" ∧
    ("a2b" : String) ≠ "a2_b" :=
  ⟨by decide, by decide, by decide⟩

/-- C4 counterexample: the claim says a string parsing to an infinite
value is rejected, but `numberFromString` only rejects NaN parses:
"Infinity" parses to the positive infinity, which is not finite, and the
validator succeeds with it. -/
theorem C4_counterexample_accepts_infinity :
    numberFromString.validate (Value.vStr "Infinity") = .ok (.vNum (.inf true)) ∧
    jsIsFinite (.inf true) = false :=
  ⟨by decide, rfl⟩

/-- C4 (amended): `numberFromString` succeeds exactly when the input is a
string whose numeric parse is not NaN, returning the parsed number (which
may be an infinity); a NaN parse fails with the stringified-number
message, and a non-string input fails with the string type error. -/
theorem C4_numberFromString_rejects_nan_only :
    ∀ (value : Value) (c : Context) (p : String),
    numberFromString.run value c p =
      ((match value with
        | .vStr s =>
          match jsStringToNumber s with
          | .nan => .err [⟨"\"" ++ s ++ "\" is not a stringified number", p⟩]
          | n => .ok (.vNum n)
        | v => typeFailure v p "string"), c) :=
  numberFromString_run

/-- C5: `intersection` runs every child on the same input with no
short-circuiting, merges the successful outputs into one object by shallow
right-biased spread, and accumulates every failing child's errors; under
the library invariant that failures carry at least one error, the result
is a success exactly when every child succeeds.  The closed instances show
both failing children of `intersection(string, number)` reported on a
boolean input, and the right-biased key collision. -/
theorem C5_intersection_independent_accumulating :
    (∀ (validators : List Validator) (v : Value) (c : Context) (p : String),
      (intersection validators).run v c p =
        ((if (((intersectionResults validators v p c).1).map VResult.errorsOf).flatten = []
          then .ok (.vObj (mergeOks (intersectionResults validators v p c).1 []))
          else .err (((intersectionResults validators v p c).1).map VResult.errorsOf).flatten),
         (intersectionResults validators v p c).2)) ∧
    (∀ (validators : List Validator) (v : Value) (c : Context) (p : String),
      (∀ r ∈ (intersectionResults validators v p c).1, r.isOkB = false → r.errorsOf ≠ []) →
        ((((intersection validators).run v c p).1.isOkB = true) ↔
          ∀ r ∈ (intersectionResults validators v p c).1, r.isOkB = true)) ∧
    ((intersection [string, number]).validate (Value.vBool true) =
      .err [⟨"Expected string, got boolean", ""⟩, ⟨"Expected number, got boolean", ""⟩]) ∧
    ((intersection [unknown.map (fun _ => Value.vObj [("a", Value.vNum (.fin 1)),
          ("b", Value.vNum (.fin 1))]),
        unknown.map (fun _ => Value.vObj [("a", Value.vNum (.fin 2))])]).validate Value.vNull =
      .ok (.vObj [("a", Value.vNum (.fin 2)), ("b", Value.vNum (.fin 1))])) :=
  ⟨intersection_run_eq, intersection_ok_iff, by decide, by decide⟩

/-- Witness for C5: on a boolean input both children of
`intersection(string, number)` fail with one error each, so the
success-iff-all-children-succeed equivalence makes the whole intersection
fail. -/
theorem C5_intersection_independent_accumulating_witness :
    ((intersection [string, number]).run (Value.vBool true) defaultContext rootPath).1.isOkB
      = false := by
  have h := C5_intersection_independent_accumulating.2.1 [string, number]
    (Value.vBool true) defaultContext rootPath (by decide)
  have h2 : ¬ (∀ r ∈ (intersectionResults [string, number] (Value.vBool true) rootPath
      defaultContext).1, r.isOkB = true) := by decide
  cases hb : ((intersection [string, number]).run (Value.vBool true) defaultContext
      rootPath).1.isOkB
  · rfl
  · exact absurd (h.mp hb) h2

/-- C6 counterexample: at the root, the child path of an array element is
the bare index — `array(number).validate([1,"oops","fuu"])` reports its
two errors at paths "1" and "2", which differ from the claimed ".1" and
".2". -/
theorem C6_counterexample_root_paths :
    (array number).validate (.vArr [.vNum (.fin 1), .vStr "oops", .vStr "fuu"]) =
      .err [⟨"Expected number, got string", "1"⟩, ⟨"Expected number, got string", "2"⟩] ∧
    ("1" : String) ≠ ".1" ∧ ("2" : String) ≠ ".2" :=
  ⟨by decide, by decide, by decide⟩

/-- C6 (amended): `array` validates every element (no short-circuiting)
against a fork of the context at the child path `getPath(index, parent)`
(the bare index at the root), collecting successes into a fresh list and
failures into one flattened error list; the example fails with exactly two
errors, one per non-numeric element, at paths "1" and "2". -/
theorem C6_array_elementwise_characterization :
    (∀ (validator : Validator) (items : List Value) (c : Context) (p : String),
      (array validator).run (.vArr items) c p =
        ((if ((arrayResults validator c p items 0).map VResult.errorsOf).flatten = []
          then .ok (.vArr ((arrayResults validator c p items 0).filterMap VResult.okValue))
          else .err ((arrayResults validator c p items 0).map VResult.errorsOf).flatten), c)) ∧
    ((array number).validate (.vArr [.vNum (.fin 1), .vStr "oops", .vStr "fuu"]) =
      .err [⟨"Expected number, got string", "1"⟩, ⟨"Expected number, got string", "2"⟩]) :=
  ⟨array_run_eq, by decide⟩

/-- C7: `discriminatedUnion` fails immediately on a nullish input with the
nullish message; fails at the discriminant's child path with the
missing-key message when the discriminant field is absent, and with the
unknown-value message when its value is not in the literal lookup table;
otherwise it delegates the entire input to the matched member validator,
whose result is returned. -/
theorem C7_discriminatedUnion_dispatch :
    (∀ (typeKey : String) (vs : List Validator) (v : Value) (c : Context) (p : String),
      isNullish v = true →
        (discriminatedUnion typeKey vs).run v c p =
          (failure p ("union member is nullish: " ++ jsTemplateStr v), c)) ∧
    (∀ (typeKey : String) (vs : List Validator) (v : Value) (c : Context) (p : String),
      isNullish v = false → jsGet v typeKey = .vUndefined →
        (discriminatedUnion typeKey vs).run v c p =
          (failure (getPath typeKey p)
            ("discriminant key (\"" ++ typeKey ++ "\") missing in: " ++ prettifyJson v), c)) ∧
    (∀ (typeKey : String) (vs : List Validator) (v : Value) (c : Context) (p : String),
      isNullish v = false → jsGet v typeKey ≠ .vUndefined →
        mapGet (duTable typeKey vs) (jsGet v typeKey) = none →
          (discriminatedUnion typeKey vs).run v c p =
            (failure (getPath typeKey p)
              ("discriminant value (\"" ++ typeKey ++ "\": \"" ++
                jsTemplateStr (jsGet v typeKey) ++ "\") not part of the union"), c)) ∧
    (∀ (typeKey : String) (vs : List Validator) (v : Value) (c : Context) (p : String)
        (m : Validator),
      isNullish v = false → jsGet v typeKey ≠ .vUndefined →
        mapGet (duTable typeKey vs) (jsGet v typeKey) = some m →
          (discriminatedUnion typeKey vs).run v c p = m.run v c p) :=
  ⟨du_nullish, du_missing, du_unknown, du_match⟩

/-- Witness for C7: a discriminated union over one member keyed on
type="A" rejects null with the nullish message and rejects an input
missing the discriminant with the missing-key message at path "type". -/
theorem C7_discriminatedUnion_dispatch_witness :
    (isNullish Value.vNull = true ∧
      (discriminatedUnion "type" [object [("type", literal (Value.vStr "A")),
          ("name", string)]]).run Value.vNull defaultContext rootPath =
        (failure rootPath ("union member is nullish: " ++ jsTemplateStr Value.vNull),
          defaultContext)) ∧
    (isNullish (Value.vObj [("name", Value.vStr "Alfred")]) = false ∧
      jsGet (Value.vObj [("name", Value.vStr "Alfred")]) "type" = Value.vUndefined ∧
      (discriminatedUnion "type" [object [("type", literal (Value.vStr "A")),
          ("name", string)]]).run (Value.vObj [("name", Value.vStr "Alfred")])
          defaultContext rootPath =
        (failure (getPath "type" rootPath)
          ("discriminant key (\"type\") missing in: " ++
            prettifyJson (Value.vObj [("name", Value.vStr "Alfred")])), defaultContext)) :=
  ⟨⟨rfl, C7_discriminatedUnion_dispatch.1 "type" _ Value.vNull defaultContext rootPath rfl⟩,
   ⟨rfl, rfl, C7_discriminatedUnion_dispatch.2.1 "type" _
      (Value.vObj [("name", Value.vStr "Alfred")]) defaultContext rootPath rfl rfl⟩⟩

/-- C8 counterexample: the claim says validating null always succeeds with
the default value, but `nullable` tries the underlying validator first —
a validator that itself accepts null with a non-nullish output defeats the
replacement, so `default` returns that output instead of the default. -/
theorem C8_counterexample_nullish_mapped :
    ((nullValidator.map (fun _ => Value.vStr "x")).default (Value.vNum (.fin 0))).validate
        Value.vNull = .ok (Value.vStr "x") ∧
    Value.vStr "x" ≠ Value.vNum (.fin 0) :=
  ⟨by decide, by decide⟩

/-- C8 (amended): `default(d)` is exactly `nullable()` followed by a map
replacing null/absent output values by d; hence validating null (resp.
absent) succeeds with d whenever the underlying validator rejects that
input, an accepted input with a nullish output also yields d, and an
accepted input with a non-nullish output is passed through unchanged. -/
theorem C8_default_nullable_then_map :
    (∀ (vl : Validator) (d : Value),
      vl.default d =
        (vl.nullable).map (fun v => if v = Value.vNull ∨ v = Value.vUndefined then d else v)) ∧
    (∀ (vl : Validator) (d : Value) (c : Context) (p : String),
      (vl.run .vNull c p).1.isOkB = false →
        (vl.default d).run .vNull c p = (.ok d, c)) ∧
    (∀ (vl : Validator) (d : Value) (c : Context) (p : String),
      (vl.run .vUndefined c p).1.isOkB = false →
        (vl.default d).run .vUndefined c p = (.ok d, c)) ∧
    (∀ (vl : Validator) (d : Value) (v : Value) (c : Context) (p : String) (w : Value),
      (vl.run v c p).1 = .ok w → w ≠ .vNull → w ≠ .vUndefined →
        (vl.default d).run v c p = (.ok w, c)) ∧
    (∀ (vl : Validator) (d : Value) (v : Value) (c : Context) (p : String) (w : Value),
      (vl.run v c p).1 = .ok w → (w = .vNull ∨ w = .vUndefined) →
        (vl.default d).run v c p = (.ok d, c)) := by
  refine ⟨fun vl d => rfl, ?_, ?_, ?_, ?_⟩
  · intro vl d c p h
    have hn := nullable_run_null_of_fail vl c p h
    have h2 := default_run_of_nullable_ok vl d _ c p _ hn
    rw [if_pos (Or.inl rfl)] at h2
    exact h2
  · intro vl d c p h
    have hn := nullable_run_undef_of_fail vl c p h
    have h2 := default_run_of_nullable_ok vl d _ c p _ hn
    rw [if_pos (Or.inr rfl)] at h2
    exact h2
  · intro vl d v c p w h hw1 hw2
    have hn := nullable_run_of_ok vl v c p w h
    have h2 := default_run_of_nullable_ok vl d v c p w hn
    rw [if_neg (by simp [hw1, hw2])] at h2
    exact h2
  · intro vl d v c p w h hw
    have hn := nullable_run_of_ok vl v c p w h
    have h2 := default_run_of_nullable_ok vl d v c p w hn
    rw [if_pos hw] at h2
    exact h2

/-- Witness for C8: `string` rejects null, so `string.default("-")`
validates null to the default. -/
theorem C8_default_nullable_then_map_witness :
    ((string.run Value.vNull defaultContext rootPath).1.isOkB = false) ∧
    (string.default (Value.vStr "-")).run Value.vNull defaultContext rootPath =
      (.ok (Value.vStr "-"), defaultContext) :=
  ⟨rfl, C8_default_nullable_then_map.2.1 string (Value.vStr "-") defaultContext rootPath rfl⟩

/-- C9: the runtime dispatch of `union` is decided solely by whether the
first argument probes as a truthy object; null has the "object" runtime
kind but is falsy, so no bare literal takes the validator branch, and a
call whose first argument is a literal wraps every argument with
`literal`; in particular `union(null, "hello", true, 33)` accepts exactly
those four values. -/
theorem C9_union_literal_dispatch :
    (jsTypeof Value.vNull = "object" ∧ jsTruthy Value.vNull = false) ∧
    (∀ l : LitVal, UnionArg.isTruthyObject (.lit l) = false) ∧
    (∀ vl : Validator, UnionArg.isTruthyObject (.validator vl) = true) ∧
    (∀ (l : LitVal) (args : List UnionArg),
      union (.lit l :: args) =
        unionOfLiterals ((UnionArg.lit l :: args).map UnionArg.asLiteralValidator)) ∧
    (∀ value : Value,
      ((union [.lit .null, .lit (.str "hello"), .lit (.bool true),
          .lit (.num (.fin 33))]).validate value).isOkB =
        (jsStrictEq value .vNull || jsStrictEq value (.vStr "hello") ||
          jsStrictEq value (.vBool true) || jsStrictEq value (.vNum (.fin 33)))) ∧
    ((union [.lit .null, .lit (.str "hello"), .lit (.bool true),
        .lit (.num (.fin 33))]).validate Value.vNull = .ok Value.vNull) ∧
    ((union [.lit .null, .lit (.str "hello"), .lit (.bool true),
        .lit (.num (.fin 33))]).validate (Value.vStr "hello") = .ok (Value.vStr "hello")) ∧
    ((union [.lit .null, .lit (.str "hello"), .lit (.bool true),
        .lit (.num (.fin 33))]).validate (Value.vBool true) = .ok (Value.vBool true)) ∧
    ((union [.lit .null, .lit (.str "hello"), .lit (.bool true),
        .lit (.num (.fin 33))]).validate (Value.vNum (.fin 33)) = .ok (Value.vNum (.fin 33))) :=
  ⟨⟨rfl, rfl⟩, litval_not_truthy_object, fun vl => rfl, union_lit_dispatch,
   unionExample_accepts, by decide, by decide, by decide, by decide⟩

/-- C10: the object gate only rejects nullish values and values whose
runtime kind is not "object"; an array has the "object" kind, so it
reaches field validation, and `object({}).validate([])` (indeed of any
array) succeeds with the empty object. -/
theorem C10_object_gate_accepts_arrays :
    (∀ (props : List (String × Validator)) (xs : List Value) (c : Context) (p : String),
      (object props).run (.vArr xs) c p = (objectFields props (.vArr xs) c p, c)) ∧
    (∀ xs : List Value, (object []).validate (.vArr xs) = .ok (.vObj [])) :=
  ⟨object_run_array, fun xs => by
    rw [Validator.validate, object_run_array]
    rw [objectFields, objectLoop]
    simp⟩

end Idtlt
